import Mathlib

/-!
Verification development for a Taiwan-market stock dashboard.

The program ingests end-of-day candles (optionally extended by a candle
synthesized from intraday ticks), annotates them with simple moving
averages and candlestick-pattern signals, builds per-symbol snapshots,
screens them with a strict conjunction, and sizes positions from risk
parameters.

Numbers are modelled as rationals (`ℚ`).  JavaScript division by zero
yields `Infinity`/`NaN`, both of which fail any `<` comparison; where the
source divides by a possibly-zero quantity and compares, the embedding
makes that case-split explicit, since rational division by zero is `0`.
The JavaScript field named `open` is rendered `open_` (`open` is a Lean
keyword).
-/

/-- Directional signal attached to a candle (source type `'BUY' | 'SELL'`). -/
inductive Signal where
  | BUY
  | SELL
deriving DecidableEq

/-- One candle with indicator and signal annotations (source `OHLC` in
`types.ts`).  The signal fields are optional in the source (`?:`), and
`signalType` is in addition nullable, hence `Option (Option Signal)`:
`none` = field absent, `some none` = field present with value `null`. -/
structure OHLC where
  date : String
  open_ : ℚ
  high : ℚ
  low : ℚ
  close : ℚ
  volume : ℚ
  ma5 : Option ℚ
  ma10 : Option ℚ
  ma20 : Option ℚ
  ma50 : Option ℚ
  ma200 : Option ℚ
  volMa5 : Option ℚ
  isPinBar : Option Bool := none
  isEngulfing : Option Bool := none
  isRSFlip : Option Bool := none
  signalType : Option (Option Signal) := none
deriving DecidableEq

/-- End-of-day row returned by the data provider (source `FinMindData`). -/
structure FinMindData where
  date : String
  stock_id : String
  Trading_Volume : ℚ
  Trading_money : ℚ
  open_ : ℚ
  max : ℚ
  min : ℚ
  close : ℚ
  spread : ℚ
  Trading_turnover : ℚ
deriving DecidableEq

/-- Intraday tick row (source `FinMindTick`). -/
structure FinMindTick where
  date : String
  stock_id : String
  deal_price : ℚ
  deal_trading_volume : ℚ
deriving DecidableEq

/-- Static identity of a tracked ticker (source `StockSymbol`). -/
structure StockSymbol where
  code : String
  name : String
  industry : String
deriving DecidableEq

/-- Per-symbol snapshot (source `StockData`). -/
structure StockData where
  code : String
  name : String
  industry : String
  data : List OHLC
  lastClose : ℚ
  change : ℚ
  changePercent : ℚ
  isAbove200MA : Bool
  isVolAbove5MA : Bool
  ADR_Percent : ℚ
  RS_Score : ℚ
  yearHigh : ℚ
deriving DecidableEq

/-- Risk-sizing inputs (source `RiskParams`). -/
structure RiskParams where
  totalCapital : ℚ
  riskPercent : ℚ
  entryPrice : ℚ
  stopLossPrice : ℚ
deriving DecidableEq

/-- Risk-sizing outputs (source `RiskResult`).  The share count is the
result of `Math.floor`, hence an integer. -/
structure RiskResult where
  riskAmount : ℚ
  positionSizeShares : ℤ
  positionSizeLots : ℚ
  totalCost : ℚ
  leverageRequired : Bool
deriving DecidableEq

/-- Source `calculateSMA` in `stockService.ts`: `null` when fewer than
`window` points exist, else the mean of the trailing `window` points. -/
def calculateSMA (data : List ℚ) (window : ℕ) : Option ℚ :=
  if data.length < window then none
  else
    let slice := data.drop (data.length - window)
    some (slice.sum / (window : ℚ))

/-- JavaScript `Math.max(...l)` for the non-empty lists this program feeds
it (the empty case, `-Infinity` in JavaScript, is never reached). -/
def listMaxQ : List ℚ → ℚ
  | [] => 0
  | h :: t => t.foldl max h

/-- Key resistance level of `detectPatterns`: max high of the first 50
candles when more than 50 exist, else 0. -/
def keyLevelOf (data : List OHLC) : ℚ :=
  if 50 < data.length then listMaxQ ((data.take 50).map OHLC.high) else 0

/-- Pin-bar (hammer) test of `detectPatterns`, on the current candle. -/
def pinBar (curr : OHLC) : Bool :=
  let range := curr.high - curr.low
  let body := |curr.open_ - curr.close|
  let upperWick := curr.high - max curr.open_ curr.close
  let lowerWick := min curr.open_ curr.close - curr.low
  decide (0 < range) && decide (range * 0.6 < lowerWick) &&
    decide (body < range * 0.25) && decide (upperWick < range * 0.15)

/-- Bullish-engulfing test of `detectPatterns`. -/
def engulfing (prev curr : OHLC) : Bool :=
  decide (prev.close < prev.open_) && decide (curr.open_ < curr.close) &&
    decide (curr.open_ < prev.close) && decide (prev.open_ < curr.close)

/-- Near-key-level test of `detectPatterns`:
`Math.abs(curr.low - keyLevel) / keyLevel < 0.02`.  When `keyLevel = 0`
the JavaScript quotient is `Infinity` (or `NaN` when the numerator is also
0) and the comparison is false; that case is split out explicitly. -/
def nearKey (keyLevel : ℚ) (curr : OHLC) : Bool :=
  if keyLevel = 0 then false
  else decide (|curr.low - keyLevel| / keyLevel < 0.02)

/-- Body of the `detectPatterns` map callback for index `i ≥ 1`. -/
def annotateCandle (keyLevel : ℚ) (prev curr : OHLC) : OHLC :=
  let isPinBar := pinBar curr
  let isEngulfing := engulfing prev curr
  let nearKeyLevel := nearKey keyLevel curr
  let isRSFlip := nearKeyLevel && (isPinBar || isEngulfing)
  let signalType : Option Signal :=
    if isRSFlip || (isPinBar && nearKeyLevel) || (isEngulfing && nearKeyLevel) then
      some Signal.BUY
    else none
  { curr with
      isPinBar := some isPinBar
      isEngulfing := some isEngulfing
      isRSFlip := some isRSFlip
      signalType := some signalType }

/-- Source `detectPatterns`: index 0 is returned unchanged; every later
candle is annotated against its predecessor and the series key level. -/
def detectPatterns (data : List OHLC) : List OHLC :=
  let keyLevel := keyLevelOf data
  data.mapIdx fun i curr =>
    if i = 0 then curr
    else
      match data[i - 1]? with
      | none => curr
      | some prev => annotateCandle keyLevel prev curr

/-- Candle synthesized from today's ticks (`fetchMarketData`, snapshot
block): open/close are the first/last tick prices, high/low are running
max/min over all tick prices seeded at the open, volume is the sum of
tick sizes. -/
def tickCandle (todayStr stockCode : String) (lastDataPoint : FinMindData)
    (ticks : List FinMindTick) (t0 : FinMindTick) : FinMindData :=
  let op := t0.deal_price
  let close := match ticks.getLast? with
    | some t => t.deal_price
    | none => op
  let high := ticks.foldl (fun h t => max h t.deal_price) op
  let low := ticks.foldl (fun l t => min l t.deal_price) op
  let volume := ticks.foldl (fun v t => v + t.deal_trading_volume) 0
  { date := todayStr
    stock_id := stockCode
    Trading_Volume := volume
    Trading_money := 0
    open_ := op
    max := high
    min := low
    close := close
    spread := close - lastDataPoint.close
    Trading_turnover := 0 }

/-- Real-time snapshot logic of `fetchMarketData`: when the last row is
not today's and ticks were obtained (`some`, non-empty), append one
synthesized candle; otherwise the rows pass through unchanged.  A failed
tick fetch is the `none` case (the source catches and ignores it). -/
def mergeTicks (rawData : List FinMindData) (todayStr stockCode : String)
    (ticks : Option (List FinMindTick)) : List FinMindData :=
  match rawData.getLast? with
  | none => rawData
  | some lastDataPoint =>
    if lastDataPoint.date = todayStr then rawData
    else
      match ticks with
      | none => rawData
      | some ts =>
        match ts with
        | [] => rawData
        | t0 :: _ => rawData ++ [tickCandle todayStr stockCode lastDataPoint ts t0]

/-- Indicator step of `fetchMarketData` (the `rawData.forEach` loop): the
source pushes each close/volume onto growing arrays and hands them to
`calculateSMA`, so the candle at index `i` sees exactly the first `i + 1`
rows. -/
def processRaw (rawData : List FinMindData) : List OHLC :=
  rawData.mapIdx fun i d =>
    let prices := (rawData.take (i + 1)).map FinMindData.close
    let volumes := (rawData.take (i + 1)).map FinMindData.Trading_Volume
    { date := d.date
      open_ := d.open_
      high := d.max
      low := d.min
      close := d.close
      volume := d.Trading_Volume
      ma5 := calculateSMA prices 5
      ma10 := calculateSMA prices 10
      ma20 := calculateSMA prices 20
      ma50 := calculateSMA prices 50
      ma200 := calculateSMA prices 200
      volMa5 := calculateSMA volumes 5 }

/-- JavaScript conditional `x ? f(x) : false` on a nullable number field:
`null`/`undefined` and `0` are falsy. -/
def truthy (x : Option ℚ) (f : ℚ → Bool) : Bool :=
  match x with
  | none => false
  | some m => if m = 0 then false else f m

/-- Snapshot assembly of `fetchMarketData` (steps 3–4 and the returned
record): indicators, pattern detection, last/previous candle, year high,
and the two moving-average flags.  `ADR_Percent` and `RS_Score` are
random draws in the source and enter here as parameters.  `none` is the
(unreachable in the pipeline) empty-series case. -/
def snapshotOf (stock : StockSymbol) (rawData : List FinMindData)
    (ADR_Percent RS_Score : ℚ) : Option StockData :=
  let analyzedData := detectPatterns (processRaw rawData)
  match analyzedData.getLast? with
  | none => none
  | some lastCandle =>
    let prevCandle :=
      if 1 < analyzedData.length then
        (analyzedData[analyzedData.length - 2]?).getD lastCandle
      else lastCandle
    let yearHigh := listMaxQ (analyzedData.map OHLC.high)
    some
      { code := stock.code
        name := stock.name
        industry := stock.industry
        data := analyzedData
        lastClose := lastCandle.close
        change := lastCandle.close - prevCandle.close
        changePercent := (lastCandle.close - prevCandle.close) / prevCandle.close * 100
        isAbove200MA := truthy lastCandle.ma200 fun m => decide (m < lastCandle.close)
        isVolAbove5MA := truthy lastCandle.volMa5 fun m => decide (m < lastCandle.volume)
        ADR_Percent := ADR_Percent
        RS_Score := RS_Score
        yearHigh := yearHigh }

/-- External world of one refresh cycle: today's date string, the two
provider endpoints (a `none` models a thrown/failed request, and for the
EOD endpoint also a non-`success` reply), and the per-symbol simulated
metric draws. -/
structure FetchEnv where
  todayStr : String
  fetchEOD : String → Option (List FinMindData)
  fetchTicks : String → Option (List FinMindTick)
  adr : String → ℚ
  rs : String → ℚ

/-- One symbol's pipeline inside `fetchMarketData`: a failed fetch or an
empty payload yields `null` (here `none`); otherwise ticks are merged and
the snapshot is built.  The source wraps this in `try`/`catch`, so no
exception escapes; the embedding is a total function. -/
def perSymbolFetch (env : FetchEnv) (stock : StockSymbol) : Option StockData :=
  match env.fetchEOD stock.code with
  | none => none
  | some rows =>
    if 0 < rows.length then
      let rawData := mergeTicks rows env.todayStr stock.code (env.fetchTicks stock.code)
      snapshotOf stock rawData (env.adr stock.code) (env.rs stock.code)
    else none

/-- Hard-coded symbol universe (source `TARGET_STOCKS`). -/
def TARGET_STOCKS : List StockSymbol :=
  [ { code := "2330", name := "台積電", industry := "半導體" }
  , { code := "2317", name := "鴻海", industry := "電子代工" }
  , { code := "2454", name := "聯發科", industry := "IC設計" }
  , { code := "2603", name := "長榮", industry := "航運" }
  , { code := "3231", name := "緯創", industry := "AI伺服器" }
  , { code := "3008", name := "大立光", industry := "光電" }
  , { code := "3661", name := "世芯-KY", industry := "IC設計" }
  , { code := "3035", name := "智原", industry := "IC設計" } ]

/-- Batch part of `fetchMarketData` over an arbitrary symbol list:
map every symbol through its pipeline and drop the `null`s
(`results.filter(item => item !== null)`). -/
def fetchMarketDataOver (env : FetchEnv) (symbols : List StockSymbol) : List StockData :=
  (symbols.map (perSymbolFetch env)).reduceOption

/-- Source `fetchMarketData`: the batch over `TARGET_STOCKS`. -/
def fetchMarketData (env : FetchEnv) : List StockData :=
  fetchMarketDataOver env TARGET_STOCKS

/-- Source `calculatePosition` in `RiskCalculator`: no plan when the stop
gap is non-positive, else floor-sized shares, lots, cost and the
over-capital flag. -/
def calculatePosition (params : RiskParams) : Option RiskResult :=
  let riskAmount := params.totalCapital * (params.riskPercent / 100)
  let stopGap := params.entryPrice - params.stopLossPrice
  if stopGap ≤ 0 then none
  else
    let positionSizeShares : ℤ := ⌊riskAmount / stopGap⌋
    let positionSizeLots : ℚ := (positionSizeShares : ℚ) / 1000
    let totalCost : ℚ := (positionSizeShares : ℚ) * params.entryPrice
    some
      { riskAmount := riskAmount
        positionSizeShares := positionSizeShares
        positionSizeLots := positionSizeLots
        totalCost := totalCost
        leverageRequired := decide (params.totalCapital < totalCost) }

/-- Strict screening predicate of the dashboard's `filteredStocks`. -/
def screenOK (s : StockData) : Bool :=
  s.isAbove200MA && s.isVolAbove5MA && decide ((3.5 : ℚ) < s.ADR_Percent) &&
    decide ((80 : ℚ) < s.RS_Score) && decide (s.yearHigh * 0.85 ≤ s.lastClose)

/-- Source `filteredStocks`: the strict filter when enabled, else the
whole list. -/
def filteredStocks (filterEnabled : Bool) (stocks : List StockData) : List StockData :=
  if filterEnabled then stocks.filter screenOK else stocks

/-- Demonstration row for batch-resilience scenarios: a single end-of-day
row dated on the refresh day. -/
def demoRow : FinMindData := ⟨"2024-01-03", "x", 50, 0, 99, 101, 98, 100, 0, 0⟩

/-- Demonstration environment: the EOD endpoint fails for symbol code "B"
and returns `demoRow` for every other code; the tick endpoint always
fails. -/
def demoEnv : FetchEnv where
  todayStr := "2024-01-03"
  fetchEOD := fun code => if code = "B" then none else some [demoRow]
  fetchTicks := fun _ => none
  adr := fun _ => 4
  rs := fun _ => 85

/-- The candle `demoRow` processes to (all moving averages undefined). -/
def demoCandle : OHLC :=
  ⟨"2024-01-03", 99, 101, 98, 100, 50, none, none, none, none, none, none, none, none, none,
    none⟩

/-- The snapshot a successful symbol obtains under `demoEnv`. -/
def demoSnap (sym : StockSymbol) : StockData :=
  ⟨sym.code, sym.name, sym.industry, [demoCandle], 100, 0, 0, false, false, 4, 85, 101⟩

/-! ## Helper lemmas -/

theorem mapIdx_getElem?_of_lt {α β : Type} (l : List α) (f : ℕ → α → β) (i : ℕ)
    (h : i < l.length) : (l.mapIdx f)[i]? = some (f i (l.get ⟨i, h⟩)) := by
  rw [List.getElem?_eq_getElem (by simpa using h)]
  exact congrArg some (List.get_mapIdx l f i h)

theorem foldl_max_spec (l : List ℚ) (a : ℚ) :
    (l.foldl max a = a ∨ l.foldl max a ∈ l) ∧ a ≤ l.foldl max a ∧
      ∀ x ∈ l, x ≤ l.foldl max a := by
  induction l generalizing a with
  | nil => simp
  | cons b t ih =>
    obtain ⟨hmem, hle, hub⟩ := ih (max a b)
    refine ⟨?_, ?_, ?_⟩
    · rcases hmem with hm | hm
      · rcases max_choice a b with hab | hab <;> rw [List.foldl_cons, hm, hab]
        · exact Or.inl rfl
        · exact Or.inr (List.mem_cons_self ..)
      · exact Or.inr (List.mem_cons_of_mem _ hm)
    · exact le_trans (le_max_left a b) hle
    · intro x hx
      rcases List.mem_cons.mp hx with rfl | hx
      · exact le_trans (le_max_right a x) hle
      · exact hub x hx

theorem foldl_min_spec (l : List ℚ) (a : ℚ) :
    (l.foldl min a = a ∨ l.foldl min a ∈ l) ∧ l.foldl min a ≤ a ∧
      ∀ x ∈ l, l.foldl min a ≤ x := by
  induction l generalizing a with
  | nil => simp
  | cons b t ih =>
    obtain ⟨hmem, hle, hlb⟩ := ih (min a b)
    refine ⟨?_, ?_, ?_⟩
    · rcases hmem with hm | hm
      · rcases min_choice a b with hab | hab <;> rw [List.foldl_cons, hm, hab]
        · exact Or.inl rfl
        · exact Or.inr (List.mem_cons_self ..)
      · exact Or.inr (List.mem_cons_of_mem _ hm)
    · exact le_trans hle (min_le_left a b)
    · intro x hx
      rcases List.mem_cons.mp hx with rfl | hx
      · exact le_trans hle (min_le_right a x)
      · exact hlb x hx

theorem foldl_add_eq_sum (l : List ℚ) (a : ℚ) : l.foldl (· + ·) a = a + l.sum := by
  induction l generalizing a with
  | nil => simp
  | cons b t ih => rw [List.foldl_cons, ih, List.sum_cons]; ring

theorem listMaxQ_spec (h : ℚ) (t : List ℚ) :
    listMaxQ (h :: t) ∈ h :: t ∧ ∀ x ∈ h :: t, x ≤ listMaxQ (h :: t) := by
  obtain ⟨hmem, hle, hub⟩ := foldl_max_spec t h
  refine ⟨?_, ?_⟩
  · rcases hmem with hm | hm
    · rw [listMaxQ, hm]; exact List.mem_cons_self ..
    · exact List.mem_cons_of_mem _ hm
  · intro x hx
    rcases List.mem_cons.mp hx with rfl | hx
    · exact hle
    · exact hub x hx

theorem calculateSMA_take (vals : List ℚ) (W i : ℕ) (hW : 0 < W) (hi : i < vals.length) :
    calculateSMA (vals.take (i + 1)) W =
      if W - 1 ≤ i then some ((((vals.drop (i + 1 - W)).take W).sum) / (W : ℚ))
      else none := by
  have hlen : (vals.take (i + 1)).length = i + 1 := by
    rw [List.length_take]; omega
  by_cases hc : W - 1 ≤ i
  · have hWle : W ≤ i + 1 := by omega
    rw [if_pos hc, calculateSMA, if_neg (by omega)]
    have hdt : (vals.take (i + 1)).drop ((vals.take (i + 1)).length - W) =
        (vals.drop (i + 1 - W)).take W := by
      rw [hlen, List.drop_take]
      congr 1
      omega
    simp only [hdt]
  · rw [if_neg hc, calculateSMA, if_pos (by omega)]

theorem calculateSMA_pos (vals : List ℚ) (W : ℕ) (hW : 0 < W)
    (hpos : ∀ x ∈ vals, 0 < x) (m : ℚ) (hm : calculateSMA vals W = some m) : 0 < m := by
  rw [calculateSMA] at hm
  by_cases hlen : vals.length < W
  · rw [if_pos hlen] at hm; exact absurd hm (by simp)
  · rw [if_neg hlen] at hm
    have hm' : (vals.drop (vals.length - W)).sum / (W : ℚ) = m := by
      simpa using hm
    have hslen : (vals.drop (vals.length - W)).length = W := by
      rw [List.length_drop]; omega
    have hsum : 0 < (vals.drop (vals.length - W)).sum := by
      apply List.sum_pos
      · intro x hx
        exact hpos x (List.drop_subset _ _ hx)
      · intro hnil
        rw [hnil] at hslen
        simp at hslen
        omega
    rw [← hm']
    positivity

theorem calculateSMA_last_le (vals : List ℚ) (W : ℕ) (hW : 0 < W)
    (hnn : ∀ x ∈ vals, 0 ≤ x) (m : ℚ) (hm : calculateSMA vals W = some m)
    (x : ℚ) (hx : vals.getLast? = some x) : x ≤ (W : ℚ) * m := by
  rw [calculateSMA] at hm
  by_cases hlen : vals.length < W
  · rw [if_pos hlen] at hm; exact absurd hm (by simp)
  · rw [if_neg hlen] at hm
    have hm' : (vals.drop (vals.length - W)).sum / (W : ℚ) = m := by
      simpa using hm
    have hmem : x ∈ vals.drop (vals.length - W) := by
      have hW1 : W - 1 < W := by omega
      have hidx : (vals.drop (vals.length - W))[W - 1]? = vals[vals.length - W + (W - 1)]? := by
        rw [List.getElem?_drop]
      have hlast : vals.length - W + (W - 1) = vals.length - 1 := by omega
      rw [hlast, ← List.getLast?_eq_getElem?, hx] at hidx
      exact List.getElem?_mem hidx
    have hle : x ≤ (vals.drop (vals.length - W)).sum :=
      List.single_le_sum (fun y hy => hnn y (List.drop_subset _ _ hy)) x hmem
    have hWq : (0 : ℚ) < (W : ℚ) := by exact_mod_cast hW
    calc x ≤ (vals.drop (vals.length - W)).sum := hle
      _ = (W : ℚ) * m := by rw [← hm']; field_simp

theorem detectPatterns_length (data : List OHLC) :
    (detectPatterns data).length = data.length := by
  simp [detectPatterns, List.length_mapIdx]

theorem detectPatterns_getElem?_zero (data : List OHLC) :
    (detectPatterns data)[0]? = data[0]? := by
  cases data with
  | nil => rfl
  | cons a t =>
    rw [show detectPatterns (a :: t) =
      (a :: t).mapIdx (fun i curr =>
        if i = 0 then curr
        else
          match (a :: t)[i - 1]? with
          | none => curr
          | some prev => annotateCandle (keyLevelOf (a :: t)) prev curr) from rfl]
    rw [mapIdx_getElem?_of_lt _ _ 0 (by simp)]
    simp

theorem detectPatterns_getElem?_succ (data : List OHLC) (i : ℕ) (h : i + 1 < data.length) :
    (detectPatterns data)[i + 1]? =
      some (annotateCandle (keyLevelOf data) (data.get ⟨i, by omega⟩)
        (data.get ⟨i + 1, h⟩)) := by
  rw [show detectPatterns data =
    data.mapIdx (fun i curr =>
      if i = 0 then curr
      else
        match data[i - 1]? with
        | none => curr
        | some prev => annotateCandle (keyLevelOf data) prev curr) from rfl]
  rw [mapIdx_getElem?_of_lt _ _ (i + 1) h]
  have hgi : data[i + 1 - 1]? = some (data.get ⟨i, by omega⟩) := by
    simp only [Nat.add_sub_cancel]
    rw [List.getElem?_eq_getElem (by omega)]
    rfl
  simp only [if_neg (Nat.succ_ne_zero i), hgi]

theorem annotateCandle_close (k : ℚ) (p c : OHLC) :
    (annotateCandle k p c).close = c.close := rfl

theorem annotateCandle_volume (k : ℚ) (p c : OHLC) :
    (annotateCandle k p c).volume = c.volume := rfl

theorem annotateCandle_ma200 (k : ℚ) (p c : OHLC) :
    (annotateCandle k p c).ma200 = c.ma200 := rfl

theorem annotateCandle_volMa5 (k : ℚ) (p c : OHLC) :
    (annotateCandle k p c).volMa5 = c.volMa5 := rfl

theorem detectPatterns_getElem?_map {α : Type} (data : List OHLC) (g : OHLC → α)
    (hg : ∀ k p c, g (annotateCandle k p c) = g c) (i : ℕ) :
    ((detectPatterns data)[i]?).map g = (data[i]?).map g := by
  by_cases hi : i < data.length
  · cases i with
    | zero => rw [detectPatterns_getElem?_zero]
    | succ j =>
      rw [detectPatterns_getElem?_succ data j hi, List.getElem?_eq_getElem hi]
      simp only [Option.map_some']
      rw [hg]
      rfl
  · have h1 : data[i]? = none := List.getElem?_eq_none (by omega)
    have h2 : (detectPatterns data)[i]? = none :=
      List.getElem?_eq_none (by rw [detectPatterns_length]; omega)
    rw [h1, h2]

theorem detectPatterns_getLast?_map {α : Type} (data : List OHLC) (g : OHLC → α)
    (hg : ∀ k p c, g (annotateCandle k p c) = g c) :
    ((detectPatterns data).getLast?).map g = (data.getLast?).map g := by
  rw [List.getLast?_eq_getElem?, List.getLast?_eq_getElem?, detectPatterns_length]
  exact detectPatterns_getElem?_map data g hg _

theorem processRaw_length (raw : List FinMindData) :
    (processRaw raw).length = raw.length := by
  simp [processRaw, List.length_mapIdx]

theorem processRaw_getElem? (raw : List FinMindData) (i : ℕ) (h : i < raw.length) :
    (processRaw raw)[i]? = some
      { date := (raw.get ⟨i, h⟩).date
        open_ := (raw.get ⟨i, h⟩).open_
        high := (raw.get ⟨i, h⟩).max
        low := (raw.get ⟨i, h⟩).min
        close := (raw.get ⟨i, h⟩).close
        volume := (raw.get ⟨i, h⟩).Trading_Volume
        ma5 := calculateSMA ((raw.take (i + 1)).map FinMindData.close) 5
        ma10 := calculateSMA ((raw.take (i + 1)).map FinMindData.close) 10
        ma20 := calculateSMA ((raw.take (i + 1)).map FinMindData.close) 20
        ma50 := calculateSMA ((raw.take (i + 1)).map FinMindData.close) 50
        ma200 := calculateSMA ((raw.take (i + 1)).map FinMindData.close) 200
        volMa5 := calculateSMA ((raw.take (i + 1)).map FinMindData.Trading_Volume) 5 } :=
  mapIdx_getElem?_of_lt raw _ i h

theorem snapshotOf_eq_some (stock : StockSymbol) (raw : List FinMindData) (adr rs : ℚ)
    (s : StockData) (hs : snapshotOf stock raw adr rs = some s) :
    ∃ lc, (detectPatterns (processRaw raw)).getLast? = some lc ∧
      s.data = detectPatterns (processRaw raw) ∧
      s.lastClose = lc.close ∧
      s.isAbove200MA = truthy lc.ma200 (fun m => decide (m < lc.close)) ∧
      s.isVolAbove5MA = truthy lc.volMa5 (fun m => decide (m < lc.volume)) := by
  rw [snapshotOf] at hs
  cases hgl : (detectPatterns (processRaw raw)).getLast? with
  | none => rw [hgl] at hs; exact absurd hs (by simp)
  | some lc =>
    rw [hgl] at hs
    refine ⟨lc, rfl, ?_, ?_, ?_, ?_⟩ <;>
      · obtain rfl := Option.some.inj hs
        rfl

/-! ## Claims -/

/-- C1: for every candle series and window, the W-period moving average
annotated at position i is defined iff i ≥ W−1, and when defined equals the
arithmetic mean of the values at positions i−W+1 through i; the six annotated
fields are exactly `calculateSMA` over the first i+1 closes (resp. volumes). -/
theorem C1_moving_average (raw : List FinMindData) (W i : ℕ) (hW : 0 < W)
    (hi : i < raw.length) :
    (calculateSMA ((raw.map FinMindData.close).take (i + 1)) W = none ↔ i < W - 1) ∧
    (W - 1 ≤ i →
      calculateSMA ((raw.map FinMindData.close).take (i + 1)) W =
        some (((((raw.map FinMindData.close).drop (i + 1 - W)).take W).sum) / (W : ℚ))) ∧
    (∀ c, (processRaw raw)[i]? = some c →
      c.ma5 = calculateSMA ((raw.map FinMindData.close).take (i + 1)) 5 ∧
      c.ma10 = calculateSMA ((raw.map FinMindData.close).take (i + 1)) 10 ∧
      c.ma20 = calculateSMA ((raw.map FinMindData.close).take (i + 1)) 20 ∧
      c.ma50 = calculateSMA ((raw.map FinMindData.close).take (i + 1)) 50 ∧
      c.ma200 = calculateSMA ((raw.map FinMindData.close).take (i + 1)) 200 ∧
      c.volMa5 = calculateSMA ((raw.map FinMindData.Trading_Volume).take (i + 1)) 5) := by
  have hmap : i < (raw.map FinMindData.close).length := by simpa using hi
  refine ⟨?_, ?_, ?_⟩
  · rw [calculateSMA_take _ W i hW hmap]
    by_cases hc : W - 1 ≤ i
    · rw [if_pos hc]; simp; omega
    · rw [if_neg hc]; simp; omega
  · intro hc
    rw [calculateSMA_take _ W i hW hmap, if_pos hc]
  · intro c hc
    rw [processRaw_getElem? raw i hi] at hc
    obtain rfl := Option.some.inj hc.symm
    refine ⟨?_, ?_, ?_, ?_, ?_, ?_⟩ <;> simp [List.map_take]

/-- Witness for C1 at the spec's example: closes [10,12,11,13,14], the
3-period average over the first five closes is (11+13+14)/3 = 38/3. -/
theorem C1_moving_average_witness :
    calculateSMA [(10 : ℚ), 12, 11, 13, 14] 3 = some (38 / 3) := by
  have h := (C1_moving_average
    [⟨"d1", "s", 0, 0, 0, 0, 0, 10, 0, 0⟩, ⟨"d2", "s", 0, 0, 0, 0, 0, 12, 0, 0⟩,
     ⟨"d3", "s", 0, 0, 0, 0, 0, 11, 0, 0⟩, ⟨"d4", "s", 0, 0, 0, 0, 0, 13, 0, 0⟩,
     ⟨"d5", "s", 0, 0, 0, 0, 0, 14, 0, 0⟩] 3 4 (by norm_num) (by norm_num)).2.1
    (by norm_num)
  simp only [List.map_cons, List.map_nil, List.take_cons, List.drop] at h
  norm_num [List.take, List.drop] at h ⊢
  convert h using 2

theorem nearKey_annotateCandle (k' k : ℚ) (p c : OHLC) :
    nearKey k' (annotateCandle k p c) = nearKey k' c := rfl

theorem detectPatterns_some_succ (data : List OHLC) (i : ℕ) (c : OHLC)
    (h1 : 1 ≤ i) (hc : (detectPatterns data)[i]? = some c) :
    ∃ (j : ℕ) (h : j + 1 < data.length), i = j + 1 ∧
      c = annotateCandle (keyLevelOf data) (data.get ⟨j, by omega⟩)
        (data.get ⟨j + 1, h⟩) := by
  obtain ⟨j, rfl⟩ := Nat.exists_eq_add_of_le h1
  have hlen : 1 + j < data.length := by
    by_contra hge
    rw [List.getElem?_eq_none (by rw [detectPatterns_length]; omega)] at hc
    exact absurd hc (by simp)
  have hj : j + 1 < data.length := by omega
  have := detectPatterns_getElem?_succ data j hj
  rw [show 1 + j = j + 1 from by omega] at hc
  rw [this] at hc
  exact ⟨j, hj, by omega, (Option.some.inj hc).symm⟩

/-- C2: the risk sizer returns no plan iff entry − stop ≤ 0; otherwise the
plan has riskAmount = capital·risk%/100, shares = ⌊riskAmount/stopGap⌋,
lots = shares/1000, totalCost = shares·entry, and the over-capital flag holds
exactly when totalCost > capital. -/
theorem C2_risk_sizer (p : RiskParams) :
    (calculatePosition p = none ↔ p.entryPrice - p.stopLossPrice ≤ 0) ∧
    (∀ r, calculatePosition p = some r →
      r.riskAmount = p.totalCapital * (p.riskPercent / 100) ∧
      r.positionSizeShares =
        ⌊p.totalCapital * (p.riskPercent / 100) / (p.entryPrice - p.stopLossPrice)⌋ ∧
      r.positionSizeLots = (r.positionSizeShares : ℚ) / 1000 ∧
      r.totalCost = (r.positionSizeShares : ℚ) * p.entryPrice ∧
      (r.leverageRequired = true ↔ p.totalCapital < r.totalCost)) := by
  constructor
  · rw [calculatePosition]
    by_cases hg : p.entryPrice - p.stopLossPrice ≤ 0
    · simp [hg]
    · simp [hg]
  · intro r hr
    rw [calculatePosition] at hr
    by_cases hg : p.entryPrice - p.stopLossPrice ≤ 0
    · rw [if_pos hg] at hr; exact absurd hr (by simp)
    · rw [if_neg hg] at hr
      obtain rfl := Option.some.inj hr
      refine ⟨rfl, rfl, rfl, rfl, ?_⟩
      simp

/-- Witness for C2 at the spec's examples: capital 1,000,000, risk 1%,
entry 100, stop 95 gives 2000 shares, 2 lots, cost 200,000, no leverage;
entry 100 with stop 100 gives no plan. -/
theorem C2_risk_sizer_witness :
    calculatePosition ⟨1000000, 1, 100, 100⟩ = none ∧
    calculatePosition ⟨1000000, 1, 100, 95⟩ =
      some ⟨10000, 2000, 2, 200000, false⟩ := by
  constructor
  · exact (C2_risk_sizer ⟨1000000, 1, 100, 100⟩).1.mpr (by norm_num)
  · norm_num [calculatePosition]

/-- C3: for a non-empty end-of-day series, ticks are ignored when the last
candle is already today's; otherwise a non-empty tick list appends exactly one
candle whose open/close are the first/last tick prices, whose high/low are the
max/min tick prices, and whose volume is the sum of tick sizes; the output has
length original + 0 or 1 and the originals are an unchanged prefix. -/
theorem C3_series_builder (rawData : List FinMindData) (todayStr stockCode : String)
    (ticks : Option (List FinMindTick)) (last : FinMindData)
    (hlast : rawData.getLast? = some last) :
    (last.date = todayStr → mergeTicks rawData todayStr stockCode ticks = rawData) ∧
    (∀ t0 rest, last.date ≠ todayStr → ticks = some (t0 :: rest) →
      ∃ c, mergeTicks rawData todayStr stockCode ticks = rawData ++ [c] ∧
        c.open_ = t0.deal_price ∧
        (∀ tl, (t0 :: rest).getLast? = some tl → c.close = tl.deal_price) ∧
        c.max ∈ (t0 :: rest).map FinMindTick.deal_price ∧
        (∀ p ∈ (t0 :: rest).map FinMindTick.deal_price, p ≤ c.max) ∧
        c.min ∈ (t0 :: rest).map FinMindTick.deal_price ∧
        (∀ p ∈ (t0 :: rest).map FinMindTick.deal_price, c.min ≤ p) ∧
        c.Trading_Volume = ((t0 :: rest).map FinMindTick.deal_trading_volume).sum) ∧
    ((mergeTicks rawData todayStr stockCode ticks).length = rawData.length ∨
      (mergeTicks rawData todayStr stockCode ticks).length = rawData.length + 1) ∧
    (mergeTicks rawData todayStr stockCode ticks).take rawData.length = rawData := by
  have hm : mergeTicks rawData todayStr stockCode ticks =
      (if last.date = todayStr then rawData
       else
        match ticks with
        | none => rawData
        | some ts =>
          match ts with
          | [] => rawData
          | t0 :: _ => rawData ++ [tickCandle todayStr stockCode last ts t0]) := by
    rw [mergeTicks, hlast]
  refine ⟨?_, ?_, ?_⟩
  · intro h
    rw [hm, if_pos h]
  · intro t0 rest hneq htk
    rw [hm, if_neg hneq, htk]
    refine ⟨tickCandle todayStr stockCode last (t0 :: rest) t0, rfl, rfl, ?_, ?_, ?_, ?_, ?_, ?_⟩
    · intro tl htl
      show (match (t0 :: rest).getLast? with
        | some t => t.deal_price
        | none => t0.deal_price) = tl.deal_price
      rw [htl]
    · show (t0 :: rest).foldl (fun h t => max h t.deal_price) t0.deal_price ∈ _
      rw [show (t0 :: rest).foldl (fun h t => max h t.deal_price) t0.deal_price =
          ((t0 :: rest).map FinMindTick.deal_price).foldl max t0.deal_price from
        (List.foldl_map _ _ _ _).symm]
      rcases (foldl_max_spec ((t0 :: rest).map FinMindTick.deal_price) t0.deal_price).1 with
        he | he
      · rw [he]; exact List.mem_cons_self ..
      · exact he
    · intro p hp
      show p ≤ (t0 :: rest).foldl (fun h t => max h t.deal_price) t0.deal_price
      rw [show (t0 :: rest).foldl (fun h t => max h t.deal_price) t0.deal_price =
          ((t0 :: rest).map FinMindTick.deal_price).foldl max t0.deal_price from
        (List.foldl_map _ _ _ _).symm]
      exact (foldl_max_spec _ _).2.2 p hp
    · show (t0 :: rest).foldl (fun l t => min l t.deal_price) t0.deal_price ∈ _
      rw [show (t0 :: rest).foldl (fun l t => min l t.deal_price) t0.deal_price =
          ((t0 :: rest).map FinMindTick.deal_price).foldl min t0.deal_price from
        (List.foldl_map _ _ _ _).symm]
      rcases (foldl_min_spec ((t0 :: rest).map FinMindTick.deal_price) t0.deal_price).1 with
        he | he
      · rw [he]; exact List.mem_cons_self ..
      · exact he
    · intro p hp
      show (t0 :: rest).foldl (fun l t => min l t.deal_price) t0.deal_price ≤ p
      rw [show (t0 :: rest).foldl (fun l t => min l t.deal_price) t0.deal_price =
          ((t0 :: rest).map FinMindTick.deal_price).foldl min t0.deal_price from
        (List.foldl_map _ _ _ _).symm]
      exact (foldl_min_spec _ _).2.2 p hp
    · show (t0 :: rest).foldl (fun v t => v + t.deal_trading_volume) 0 = _
      rw [show (t0 :: rest).foldl (fun v t => v + t.deal_trading_volume) 0 =
          ((t0 :: rest).map FinMindTick.deal_trading_volume).foldl (· + ·) 0 from
        (List.foldl_map _ _ _ _).symm]
      rw [foldl_add_eq_sum]
      ring
  · rw [hm]
    by_cases hd : last.date = todayStr
    · rw [if_pos hd]
      exact ⟨Or.inl rfl, List.take_length rawData⟩
    · rw [if_neg hd]
      match ticks with
      | none => exact ⟨Or.inl rfl, List.take_length rawData⟩
      | some [] => exact ⟨Or.inl rfl, List.take_length rawData⟩
      | some (t0 :: rest) =>
        constructor
        · right
          simp
        · exact List.take_left rawData _

/-- Witness for C3: one historical row dated before "today" plus three ticks
append exactly the synthesized candle (open 100, close 99, high 103, low 99,
volume 22), and the original row is an unchanged prefix. -/
theorem C3_series_builder_witness :
    mergeTicks [⟨"2024-01-02", "2330", 50, 0, 99, 101, 98, 100, 0, 0⟩]
        "2024-01-03" "2330"
        (some [⟨"2024-01-03", "2330", 100, 10⟩, ⟨"2024-01-03", "2330", 103, 5⟩,
               ⟨"2024-01-03", "2330", 99, 7⟩]) =
      [⟨"2024-01-02", "2330", 50, 0, 99, 101, 98, 100, 0, 0⟩,
       ⟨"2024-01-03", "2330", 22, 0, 100, 103, 99, 99, -1, 0⟩] ∧
    (mergeTicks [⟨"2024-01-02", "2330", 50, 0, 99, 101, 98, 100, 0, 0⟩]
        "2024-01-03" "2330"
        (some [⟨"2024-01-03", "2330", 100, 10⟩, ⟨"2024-01-03", "2330", 103, 5⟩,
               ⟨"2024-01-03", "2330", 99, 7⟩])).take 1 =
      [⟨"2024-01-02", "2330", 50, 0, 99, 101, 98, 100, 0, 0⟩] := by
  constructor
  · simp [mergeTicks, tickCandle, FinMindData.mk.injEq]
    norm_num
  · exact (C3_series_builder
      [⟨"2024-01-02", "2330", 50, 0, 99, 101, 98, 100, 0, 0⟩] "2024-01-03" "2330"
      (some [⟨"2024-01-03", "2330", 100, 10⟩, ⟨"2024-01-03", "2330", 103, 5⟩,
             ⟨"2024-01-03", "2330", 99, 7⟩])
      ⟨"2024-01-02", "2330", 50, 0, 99, 101, 98, 100, 0, 0⟩ rfl).2.2.2

theorem annotateCandle_isPinBar (k : ℚ) (p c : OHLC) :
    (annotateCandle k p c).isPinBar = some (pinBar c) := rfl

theorem annotateCandle_isEngulfing (k : ℚ) (p c : OHLC) :
    (annotateCandle k p c).isEngulfing = some (engulfing p c) := rfl

theorem annotateCandle_isRSFlip (k : ℚ) (p c : OHLC) :
    (annotateCandle k p c).isRSFlip = some (nearKey k c && (pinBar c || engulfing p c)) := rfl

theorem annotateCandle_signalType (k : ℚ) (p c : OHLC) :
    (annotateCandle k p c).signalType = some
      (if nearKey k c && (pinBar c || engulfing p c) || (pinBar c && nearKey k c) ||
          (engulfing p c && nearKey k c) then
        some Signal.BUY
      else none) := rfl

/-- C4: the detector leaves index 0 unannotated, every index i ≥ 1 carries
exactly one signal value, that value is BUY exactly under
resistance-flip ∨ (pin ∧ near) ∨ (engulfing ∧ near) and null otherwise, and
SELL is never produced. -/
theorem C4_signal_rule (data : List OHLC) :
    ((detectPatterns data)[0]? = data[0]?) ∧
    (∀ i c, 1 ≤ i → (detectPatterns data)[i]? = some c →
      (∃ v, c.signalType = some v) ∧
      c.signalType ≠ some (some Signal.SELL) ∧
      (c.signalType = some (some Signal.BUY) ∨ c.signalType = some none) ∧
      (c.signalType = some (some Signal.BUY) ↔
        (c.isRSFlip = some true ∨
         (c.isPinBar = some true ∧ nearKey (keyLevelOf data) c = true) ∨
         (c.isEngulfing = some true ∧ nearKey (keyLevelOf data) c = true)))) := by
  refine ⟨detectPatterns_getElem?_zero data, ?_⟩
  intro i c h1 hc
  obtain ⟨j, hj, rfl, rfl⟩ := detectPatterns_some_succ data i c h1 hc
  rw [annotateCandle_signalType, annotateCandle_isRSFlip, annotateCandle_isPinBar,
    annotateCandle_isEngulfing, nearKey_annotateCandle]
  cases hpb : pinBar (data.get ⟨j + 1, hj⟩) <;>
    cases heg : engulfing (data.get ⟨j, by omega⟩) (data.get ⟨j + 1, hj⟩) <;>
    cases hnk : nearKey (keyLevelOf data) (data.get ⟨j + 1, hj⟩) <;>
    simp

/-- Witness for C4 on a two-candle series: index 1 carries exactly one
signal value (here null, as the key level is 0), and it is not SELL. -/
theorem C4_signal_rule_witness :
    ∃ c, (detectPatterns
        [⟨"d1", 10, 11, 9, 10, 5, none, none, none, none, none, none, none, none, none, none⟩,
         ⟨"d2", 10, 10.3, 9, 10.2, 5, none, none, none, none, none, none, none, none, none, none⟩])[1]? =
      some c ∧
      (c.signalType = some (some Signal.BUY) ∨ c.signalType = some none) ∧
      c.signalType ≠ some (some Signal.SELL) := by
  have hc := detectPatterns_getElem?_succ
    [⟨"d1", 10, 11, 9, 10, 5, none, none, none, none, none, none, none, none, none, none⟩,
     ⟨"d2", 10, 10.3, 9, 10.2, 5, none, none, none, none, none, none, none, none, none, none⟩]
    0 (by norm_num)
  have h := (C4_signal_rule
    [⟨"d1", 10, 11, 9, 10, 5, none, none, none, none, none, none, none, none, none, none⟩,
     ⟨"d2", 10, 10.3, 9, 10.2, 5, none, none, none, none, none, none, none, none, none, none⟩]).2
    1 _ (by norm_num) hc
  exact ⟨_, hc, h.2.2.1, h.2.1⟩

/-- C10: at every index i ≥ 1 the assigned signal is BUY exactly when the
resistance-flip flag is true: the extra disjuncts of the BUY rule are
subsumed by the flip condition. -/
theorem C10_buy_iff_rsflip (data : List OHLC) :
    ∀ i c, 1 ≤ i → (detectPatterns data)[i]? = some c →
      (c.signalType = some (some Signal.BUY) ↔ c.isRSFlip = some true) := by
  intro i c h1 hc
  obtain ⟨j, hj, rfl, rfl⟩ := detectPatterns_some_succ data i c h1 hc
  rw [annotateCandle_signalType, annotateCandle_isRSFlip]
  cases hpb : pinBar (data.get ⟨j + 1, hj⟩) <;>
    cases heg : engulfing (data.get ⟨j, by omega⟩) (data.get ⟨j + 1, hj⟩) <;>
    cases hnk : nearKey (keyLevelOf data) (data.get ⟨j + 1, hj⟩) <;>
    simp

/-- Witness for C10 on a two-candle series: at index 1 BUY holds iff the
flip flag does (here both sides are false: the flag is `some false`). -/
theorem C10_buy_iff_rsflip_witness :
    ∃ c, (detectPatterns
        [⟨"d1", 10, 11, 9, 10, 5, none, none, none, none, none, none, none, none, none, none⟩,
         ⟨"d2", 9.8, 10.4, 9.5, 10.1, 5, none, none, none, none, none, none, none, none, none, none⟩])[1]? =
      some c ∧
      (c.signalType = some (some Signal.BUY) ↔ c.isRSFlip = some true) ∧
      c.isRSFlip = some false := by
  have hc := detectPatterns_getElem?_succ
    [⟨"d1", 10, 11, 9, 10, 5, none, none, none, none, none, none, none, none, none, none⟩,
     ⟨"d2", 9.8, 10.4, 9.5, 10.1, 5, none, none, none, none, none, none, none, none, none, none⟩]
    0 (by norm_num)
  refine ⟨_, hc, C10_buy_iff_rsflip _ 1 _ (by norm_num) hc, ?_⟩
  rw [annotateCandle_isRSFlip]
  norm_num [nearKey, keyLevelOf]

/-- C5: with more than 50 candles the key level is the maximum high of the
first 50; with at most 50 candles it is 0, the proximity test fails at every
candle (in JavaScript the division yields Infinity/NaN, here the zero case is
explicit and total), and no candle is flagged resistance-flip. -/
theorem C5_key_level (data : List OHLC) :
    (50 < data.length →
      keyLevelOf data ∈ (data.take 50).map OHLC.high ∧
      ∀ x ∈ (data.take 50).map OHLC.high, x ≤ keyLevelOf data) ∧
    (data.length ≤ 50 →
      keyLevelOf data = 0 ∧
      ((∀ c ∈ data, 0 < c.low) →
        (∀ c ∈ data, nearKey (keyLevelOf data) c = false) ∧
        (∀ i c, 1 ≤ i → (detectPatterns data)[i]? = some c →
          c.isRSFlip = some false))) := by
  constructor
  · intro h50
    have hk : keyLevelOf data = listMaxQ ((data.take 50).map OHLC.high) := by
      rw [keyLevelOf, if_pos h50]
    cases hm : (data.take 50).map OHLC.high with
    | nil =>
      exfalso
      have hlen50 : ((data.take 50).map OHLC.high).length = 50 := by
        rw [List.length_map, List.length_take]; omega
      rw [hm] at hlen50
      simp at hlen50
    | cons a t =>
      obtain ⟨hmem, hub⟩ := listMaxQ_spec a t
      rw [hk, hm]
      exact ⟨hmem, hub⟩
  · intro h50
    have hk : keyLevelOf data = 0 := by
      rw [keyLevelOf, if_neg (by omega)]
    refine ⟨hk, ?_⟩
    intro _hlow
    constructor
    · intro c _hc
      rw [hk, nearKey, if_pos rfl]
    · intro i c h1 hc
      obtain ⟨j, hj, rfl, rfl⟩ := detectPatterns_some_succ data i c h1 hc
      rw [annotateCandle_isRSFlip, hk, nearKey, if_pos rfl]
      simp

/-- Witness for C5: on 51 identical candles the key level is the max high of
the first 50; on a two-candle series it is 0 and index 1 is not flagged. -/
theorem C5_key_level_witness :
    (keyLevelOf (List.replicate 51
        ⟨"d", 10, 11, 9, 10, 5, none, none, none, none, none, none, none, none, none, none⟩) ∈
      ((List.replicate 51
        (⟨"d", 10, 11, 9, 10, 5, none, none, none, none, none, none, none, none, none,
          none⟩ : OHLC)).take 50).map OHLC.high) ∧
    keyLevelOf
        [⟨"d1", 10, 11, 9, 10, 5, none, none, none, none, none, none, none, none, none, none⟩,
         ⟨"d2", 10, 10.3, 9, 10.2, 5, none, none, none, none, none, none, none, none, none, none⟩] = 0 := by
  constructor
  · exact ((C5_key_level _).1 (by simp)).1
  · exact ((C5_key_level
      [⟨"d1", 10, 11, 9, 10, 5, none, none, none, none, none, none, none, none, none, none⟩,
       ⟨"d2", 10, 10.3, 9, 10.2, 5, none, none, none, none, none, none, none, none, none, none⟩]).2
      (by simp)).1

/-- C6: a candle at index i ≥ 1 is flagged a pin bar exactly when its range
is positive, its lower wick exceeds 0.6 of the range, its body is below 0.25
of the range and its upper wick is below 0.15 of the range. -/
theorem C6_pin_bar (data : List OHLC) :
    ∀ i c curr, 1 ≤ i → data[i]? = some curr → (detectPatterns data)[i]? = some c →
      (c.isPinBar = some true ↔
        (0 < curr.high - curr.low ∧
         (curr.high - curr.low) * (0.6 : ℚ) < min curr.open_ curr.close - curr.low ∧
         |curr.open_ - curr.close| < (curr.high - curr.low) * (0.25 : ℚ) ∧
         curr.high - max curr.open_ curr.close < (curr.high - curr.low) * (0.15 : ℚ))) := by
  intro i c curr h1 hcurr hc
  obtain ⟨j, hj, rfl, rfl⟩ := detectPatterns_some_succ data i c h1 hc
  have hcurr' : curr = data.get ⟨j + 1, hj⟩ := by
    rw [List.getElem?_eq_getElem hj] at hcurr
    exact (Option.some.inj hcurr).symm
  subst hcurr'
  rw [annotateCandle_isPinBar]
  simp only [pinBar, Option.some.injEq, Bool.and_eq_true, decide_eq_true_eq]
  tauto

/-- Witness for C6 at the spec's example candle open 10, close 10.2,
high 10.3, low 9: flagged a pin bar at index 1. -/
theorem C6_pin_bar_witness :
    ∃ c, (detectPatterns
        [⟨"d1", 10, 11, 9, 10, 5, none, none, none, none, none, none, none, none, none, none⟩,
         ⟨"d2", 10, 10.3, 9, 10.2, 5, none, none, none, none, none, none, none, none, none, none⟩])[1]? =
      some c ∧ c.isPinBar = some true := by
  have hc := detectPatterns_getElem?_succ
    [⟨"d1", 10, 11, 9, 10, 5, none, none, none, none, none, none, none, none, none, none⟩,
     ⟨"d2", 10, 10.3, 9, 10.2, 5, none, none, none, none, none, none, none, none, none, none⟩]
    0 (by norm_num)
  refine ⟨_, hc, ?_⟩
  rw [(C6_pin_bar _ 1 _ _ (by norm_num) (by rfl) hc)]
  norm_num
  rw [show |(1 : ℚ) / 5| = 1 / 5 from abs_of_pos (by norm_num)]
  norm_num

/-- C7: the strict screening filter keeps a snapshot exactly when all five
clauses hold, and falsifying any single clause excludes it. -/
theorem C7_screening (stocks : List StockData) (s : StockData) :
    (s ∈ filteredStocks true stocks ↔
      (s ∈ stocks ∧ s.isAbove200MA = true ∧ s.isVolAbove5MA = true ∧
       (3.5 : ℚ) < s.ADR_Percent ∧ (80 : ℚ) < s.RS_Score ∧
       s.yearHigh * 0.85 ≤ s.lastClose)) ∧
    (s.isAbove200MA = false → s ∉ filteredStocks true stocks) ∧
    (s.isVolAbove5MA = false → s ∉ filteredStocks true stocks) ∧
    (s.ADR_Percent ≤ 3.5 → s ∉ filteredStocks true stocks) ∧
    (s.RS_Score ≤ 80 → s ∉ filteredStocks true stocks) ∧
    (s.lastClose < s.yearHigh * 0.85 → s ∉ filteredStocks true stocks) := by
  have hiff : s ∈ filteredStocks true stocks ↔
      (s ∈ stocks ∧ s.isAbove200MA = true ∧ s.isVolAbove5MA = true ∧
       (3.5 : ℚ) < s.ADR_Percent ∧ (80 : ℚ) < s.RS_Score ∧
       s.yearHigh * 0.85 ≤ s.lastClose) := by
    rw [filteredStocks, if_pos rfl, List.mem_filter, screenOK]
    simp only [Bool.and_eq_true, decide_eq_true_eq]
    tauto
  refine ⟨hiff, ?_, ?_, ?_, ?_, ?_⟩ <;> intro h hmem <;> rw [hiff] at hmem
  · rw [hmem.2.1] at h; exact absurd h (by simp)
  · rw [hmem.2.2.1] at h; exact absurd h (by simp)
  · linarith [hmem.2.2.2.1]
  · linarith [hmem.2.2.2.2.1]
  · linarith [hmem.2.2.2.2.2]

/-- Witness for C7: a snapshot passing all five clauses is kept; the same
snapshot with ADR lowered to 3.5 is excluded. -/
theorem C7_screening_witness :
    (⟨"2330", "n", "i", [], 100, 0, 0, true, true, 4, 85, 110⟩ : StockData) ∈
      filteredStocks true [⟨"2330", "n", "i", [], 100, 0, 0, true, true, 4, 85, 110⟩] ∧
    (⟨"2330", "n", "i", [], 100, 0, 0, true, true, 3.5, 85, 110⟩ : StockData) ∉
      filteredStocks true [⟨"2330", "n", "i", [], 100, 0, 0, true, true, 3.5, 85, 110⟩] := by
  constructor
  · exact (C7_screening _ _).1.mpr (by norm_num)
  · exact (C7_screening [⟨"2330", "n", "i", [], 100, 0, 0, true, true, 3.5, 85, 110⟩]
      ⟨"2330", "n", "i", [], 100, 0, 0, true, true, 3.5, 85, 110⟩).2.2.2.1 (by norm_num)

/-- C8: for a snapshot built from a non-empty series with positive closes and
non-negative volumes, isAbove200MA holds iff the last candle's 200-period MA
is defined and the last close strictly exceeds it, and is false whenever that
MA is undefined; likewise isVolAbove5MA for the 5-period volume MA.  (The
source tests the nullable MA with JavaScript truthiness, so a zero MA would
read as undefined; positive closes rule that out for prices, and a zero
volume MA forces a zero last volume.) -/
theorem C8_ma_flags (stock : StockSymbol) (raw : List FinMindData) (adr rs : ℚ)
    (s : StockData)
    (hpos : ∀ d ∈ raw, 0 < d.close) (hvol : ∀ d ∈ raw, 0 ≤ d.Trading_Volume)
    (hs : snapshotOf stock raw adr rs = some s) :
    ∀ lc, s.data.getLast? = some lc →
      s.lastClose = lc.close ∧
      (s.isAbove200MA = true ↔ ∃ m, lc.ma200 = some m ∧ m < lc.close) ∧
      (lc.ma200 = none → s.isAbove200MA = false) ∧
      (s.isVolAbove5MA = true ↔ ∃ m, lc.volMa5 = some m ∧ m < lc.volume) ∧
      (lc.volMa5 = none → s.isVolAbove5MA = false) := by
  obtain ⟨lc0, hgl, hdata, hlast, hA, hV⟩ := snapshotOf_eq_some stock raw adr rs s hs
  intro lc hlc
  rw [hdata, hgl] at hlc
  obtain rfl := Option.some.inj hlc
  have hL : 0 < raw.length := by
    by_contra hcl
    have hraw : raw = [] := List.length_eq_zero.mp (by omega)
    subst hraw
    rw [show detectPatterns (processRaw ([] : List FinMindData)) = [] from rfl] at hgl
    exact absurd hgl (by simp)
  have hL1 : raw.length - 1 + 1 = raw.length := by omega
  have hL2 : raw.length - 1 < raw.length := by omega
  have hpdLast : (processRaw raw).getLast? = (processRaw raw)[raw.length - 1]? := by
    rw [List.getLast?_eq_getElem?, processRaw_length]
  have hpd := processRaw_getElem? raw (raw.length - 1) hL2
  have bridge : ∀ {α : Type} (g : OHLC → α),
      (∀ k p c, g (annotateCandle k p c) = g c) →
      some (g lc0) = ((processRaw raw)[raw.length - 1]?).map g := by
    intro α g hg
    have h := detectPatterns_getLast?_map (processRaw raw) g hg
    rw [hgl, hpdLast] at h
    simpa using h
  have hma200 : lc0.ma200 = calculateSMA (raw.map FinMindData.close) 200 := by
    have h := bridge OHLC.ma200 annotateCandle_ma200
    rw [hpd] at h
    simp only [Option.map_some'] at h
    rw [Option.some.inj h]
    rw [hL1, List.take_length]
  have hvolma : lc0.volMa5 = calculateSMA (raw.map FinMindData.Trading_Volume) 5 := by
    have h := bridge OHLC.volMa5 annotateCandle_volMa5
    rw [hpd] at h
    simp only [Option.map_some'] at h
    rw [Option.some.inj h]
    rw [hL1, List.take_length]
  have hclose : lc0.close = (raw.get ⟨raw.length - 1, hL2⟩).close := by
    have h := bridge OHLC.close annotateCandle_close
    rw [hpd] at h
    simp only [Option.map_some'] at h
    rw [Option.some.inj h]
  have hvolume : lc0.volume = (raw.get ⟨raw.length - 1, hL2⟩).Trading_Volume := by
    have h := bridge OHLC.volume annotateCandle_volume
    rw [hpd] at h
    simp only [Option.map_some'] at h
    rw [Option.some.inj h]
  have hposm : ∀ m, lc0.ma200 = some m → 0 < m := by
    intro m hm
    rw [hma200] at hm
    refine calculateSMA_pos _ 200 (by norm_num) ?_ m hm
    intro x hx
    obtain ⟨d, hd, rfl⟩ := List.mem_map.mp hx
    exact hpos d hd
  have hvnn : 0 ≤ lc0.volume := by
    rw [hvolume]
    exact hvol _ (raw.get_mem _ _)
  have hvm : ∀ m, lc0.volMa5 = some m → lc0.volume ≤ 5 * m := by
    intro m hm
    rw [hvolma] at hm
    have hget : (raw.map FinMindData.Trading_Volume).getLast? = some lc0.volume := by
      rw [hvolume, List.getLast?_eq_getElem?, List.length_map,
        List.getElem?_eq_getElem (by simpa using hL2)]
      simp
    have := calculateSMA_last_le (raw.map FinMindData.Trading_Volume) 5 (by norm_num)
      (by
        intro x hx
        obtain ⟨d, hd, rfl⟩ := List.mem_map.mp hx
        exact hvol d hd) m hm lc0.volume hget
    simpa using this
  refine ⟨hlast, ?_, ?_, ?_, ?_⟩
  · rw [hA]
    cases hcase : lc0.ma200 with
    | none => simp [truthy]
    | some m =>
      have hm := hposm m hcase
      rw [truthy, if_neg hm.ne']
      simp
  · intro h
    rw [hA, h]
    rfl
  · rw [hV]
    cases hcase : lc0.volMa5 with
    | none => simp [truthy]
    | some m =>
      by_cases hm0 : m = 0
      · subst hm0
        have hv0 : lc0.volume = 0 := le_antisymm (by simpa using hvm 0 hcase) hvnn
        rw [truthy, if_pos rfl]
        simp [hv0]
      · rw [truthy, if_neg hm0]
        simp
  · intro h
    rw [hV, h]
    rfl

/-- Witness for C8: a one-row series (close 100, volume 50) has both MAs
undefined, so both flags are false; the second conjunct is the theorem's
undefined-MA clause applied to that snapshot. -/
theorem C8_ma_flags_witness :
    snapshotOf ⟨"2330", "n", "i"⟩ [⟨"2024-01-02", "2330", 50, 0, 99, 101, 98, 100, 0, 0⟩] 4 85 =
      some ⟨"2330", "n", "i",
        [⟨"2024-01-02", 99, 101, 98, 100, 50, none, none, none, none, none, none, none, none,
          none, none⟩],
        100, 0, 0, false, false, 4, 85, 101⟩ ∧
    (⟨"2330", "n", "i",
        [⟨"2024-01-02", 99, 101, 98, 100, 50, none, none, none, none, none, none, none, none,
          none, none⟩],
        100, 0, 0, false, false, 4, 85, 101⟩ : StockData).isAbove200MA = false := by
  have hs : snapshotOf ⟨"2330", "n", "i"⟩
      [⟨"2024-01-02", "2330", 50, 0, 99, 101, 98, 100, 0, 0⟩] 4 85 =
      some ⟨"2330", "n", "i",
        [⟨"2024-01-02", 99, 101, 98, 100, 50, none, none, none, none, none, none, none, none,
          none, none⟩],
        100, 0, 0, false, false, 4, 85, 101⟩ := by
    simp [snapshotOf, processRaw, detectPatterns, keyLevelOf, listMaxQ, truthy, calculateSMA,
      List.mapIdx_cons, List.mapIdx_nil, StockData.mk.injEq, OHLC.mk.injEq]
  refine ⟨hs, ?_⟩
  exact (C8_ma_flags ⟨"2330", "n", "i"⟩
    [⟨"2024-01-02", "2330", 50, 0, 99, 101, 98, 100, 0, 0⟩] 4 85 _
    (by intro d hd; simp at hd; subst hd; norm_num)
    (by intro d hd; simp at hd; subst hd; norm_num) hs
    ⟨"2024-01-02", 99, 101, 98, 100, 50, none, none, none, none, none, none, none, none,
      none, none⟩ rfl).2.2.1 rfl

/-- C9: the batch refresh is the order-preserving filter of the per-symbol
results: a failed symbol is dropped without affecting the others' relative
order, a successful symbol contributes exactly its snapshot, and the whole
batch is a total function (the source catches every per-symbol error). -/
theorem C9_batch (env : FetchEnv) :
    (∀ symbols : List StockSymbol,
      fetchMarketDataOver env symbols = symbols.filterMap (perSymbolFetch env)) ∧
    (∀ A C (b : StockSymbol), perSymbolFetch env b = none →
      fetchMarketDataOver env (A ++ b :: C) =
        fetchMarketDataOver env A ++ fetchMarketDataOver env C) ∧
    (∀ st snap, perSymbolFetch env st = some snap →
      fetchMarketDataOver env [st] = [snap]) ∧
    fetchMarketData env = TARGET_STOCKS.filterMap (perSymbolFetch env) := by
  have h1 : ∀ symbols : List StockSymbol,
      fetchMarketDataOver env symbols = symbols.filterMap (perSymbolFetch env) := by
    intro symbols
    rw [fetchMarketDataOver, List.reduceOption, List.filterMap_map]
    rfl
  refine ⟨h1, ?_, ?_, h1 TARGET_STOCKS⟩
  · intro A C b hb
    rw [h1, h1, h1, List.filterMap_append, List.filterMap_cons, hb]
  · intro st snap hsnap
    rw [h1, List.filterMap_cons, hsnap]
    rfl

/-- Witness for C9: under `demoEnv` symbol "B" fails while "A" and "C"
succeed, and the batch over [A, B, C] is exactly [snapshot of A,
snapshot of C] in that order. -/
theorem C9_batch_witness :
    perSymbolFetch demoEnv ⟨"B", "b", "ib"⟩ = none ∧
    fetchMarketDataOver demoEnv [⟨"A", "a", "ia"⟩, ⟨"B", "b", "ib"⟩, ⟨"C", "c", "ic"⟩] =
      [demoSnap ⟨"A", "a", "ia"⟩, demoSnap ⟨"C", "c", "ic"⟩] := by
  have hB : perSymbolFetch demoEnv ⟨"B", "b", "ib"⟩ = none := by
    simp [perSymbolFetch, demoEnv]
  have hA : perSymbolFetch demoEnv ⟨"A", "a", "ia"⟩ = some (demoSnap ⟨"A", "a", "ia"⟩) := by
    simp [perSymbolFetch, demoEnv, demoRow, mergeTicks, snapshotOf, processRaw, detectPatterns,
      keyLevelOf, listMaxQ, truthy, calculateSMA, List.mapIdx_cons, List.mapIdx_nil, demoSnap,
      demoCandle, StockData.mk.injEq, OHLC.mk.injEq]
  have hC : perSymbolFetch demoEnv ⟨"C", "c", "ic"⟩ = some (demoSnap ⟨"C", "c", "ic"⟩) := by
    simp [perSymbolFetch, demoEnv, demoRow, mergeTicks, snapshotOf, processRaw, detectPatterns,
      keyLevelOf, listMaxQ, truthy, calculateSMA, List.mapIdx_cons, List.mapIdx_nil, demoSnap,
      demoCandle, StockData.mk.injEq, OHLC.mk.injEq]
  refine ⟨hB, ?_⟩
  rw [show ([⟨"A", "a", "ia"⟩, ⟨"B", "b", "ib"⟩, ⟨"C", "c", "ic"⟩] : List StockSymbol) =
    [⟨"A", "a", "ia"⟩] ++ ⟨"B", "b", "ib"⟩ :: [⟨"C", "c", "ic"⟩] from rfl]
  rw [(C9_batch demoEnv).2.1 [⟨"A", "a", "ia"⟩] [⟨"C", "c", "ic"⟩] ⟨"B", "b", "ib"⟩ hB]
  rw [(C9_batch demoEnv).2.2.1 _ _ hA, (C9_batch demoEnv).2.2.1 _ _ hC]
  rfl
